import Mathlib

/-!
Verification development for the flux wallet-service core: the fixed-precision
Money value object, the WalletId and Wallet aggregate, the WalletTransaction
ledger record, the repository save/lookup operations, and the two-party
transfer protocol of `WalletService.transfer`.

Modelling conventions:
* JavaScript numbers are modelled by `JSNum`: either `NaN`, an infinity, or an
  exact rational (the exact value held by the IEEE double).  All amount
  arithmetic in the source happens on `bigint` (modelled by `ℤ`) and on exact
  decimal values, so `ℚ` is the faithful carrier for DECIMAL columns and
  `getValue()` results.
* `crypto.randomUUID()` is randomness supplied by the environment; it is
  modelled as an explicit `uuid : String` argument at each call site.
* `new Date()` timestamps are abstract ticks (`ℕ`) supplied by the caller.
* Thrown exceptions are modelled with `Except Err`; each `throw new Error(...)`
  site in the source maps to one constructor of `Err`.
* The relational store is an association list from wallet id to row.  A unit of
  work (BEGIN..COMMIT) is state passing on that list: `tx` is the transaction's
  view, `pool` is the committed view seen by `this.db.query` on a separate
  pooled connection.
-/

deriving instance DecidableEq for Except

namespace Flux

/-- Exception kinds.  Each constructor corresponds to one `throw new Error(...)`
site in the source. -/
inductive Err where
  /-- `Money` private constructor: 'Amount cannot be negative'. -/
  | negativeAmount
  /-- `Money.create`: 'Invalid amount for Money' (NaN, infinite or negative). -/
  | invalidAmount
  /-- `Money.create`: 'Money cannot have more than 4 decimal places'. -/
  | tooManyDecimals
  /-- `Money.subtract`: 'Insufficient funds: cannot substract larger amount'. -/
  | insufficientFunds
  /-- `WalletId.create`: 'Invalid WalletId'. -/
  | invalidWalletId
  /-- `Wallet.create`: 'userId is required'. -/
  | invalidUserId
  /-- `WalletTransaction.reconstitute`: 'Invalid transaction type'. -/
  | invalidTxType
  /-- `WalletTransaction.reconstitute`: 'Invalid transaction status'. -/
  | invalidTxStatus
  /-- `WalletRepository.save`: 'Wallet not found'. -/
  | walletNotFound
  /-- `WalletRepository.save`: 'Optimistic lock failure'. -/
  | optimisticLockConflict
  /-- SQL primary-key violation on INSERT. -/
  | duplicateKey
  /-- `WalletService.transfer`: 'Cannot transfer to the same wallet'. -/
  | selfTransfer
  /-- `WalletService.transfer`: 'Insufficient funds. Balance: ..., Required: ...'. -/
  | insufficientFundsTransfer
  /-- `WalletService.transfer` / `fundWallet`: 'Wallet not found: ...'. -/
  | walletNotFoundService
deriving DecidableEq, Repr

/-- A JavaScript `number`: NaN, an infinity, or the exact rational value of the
double. -/
inductive JSNum where
  | nan
  | posInf
  | negInf
  | fin (q : ℚ)
deriving DecidableEq, Repr

/-! ### Model of `Number.prototype.toString` fractional-digit counting

`Money.create` computes `(numValue.toString().split('.')[1] || '').length`.
ECMAScript prints a finite number in fixed decimal notation when
`1e-6 ≤ |x| < 1e21` and in exponential notation (`d.dddde±k`) otherwise.
In fixed notation the fractional part of the decimal string of an exact
decimal `q` has exactly `decExp q.den` digits, the least `k` with
`q * 10^k ∈ ℤ`.  In exponential notation the characters after the `'.'` are the
mantissa digits past the leading one followed by `e`, the sign and the
exponent digits (there is no `'.'` at all when the mantissa is one digit, as in
`"1e-7"`).

All helpers below work on the numerator/denominator integers of the reduced
fraction rather than on `ℚ`-arithmetic terms, because `Rat.mul`/`Rat.add` are
irreducible and would block kernel evaluation; bridging lemmas relate them to
the textbook `ℚ` formulations. -/

/-- Least `k'` in `k, k+1, ...` (up to `fuel` candidates) with `den ∣ 10^k'`
(equivalently, the value with reduced denominator `den` times `10^k'` is an
integer); the fuel bound is never reached for values arising from doubles
(at most 1074 fractional digits). -/
def decExpAux (den : ℕ) : ℕ → ℕ → ℕ
  | 0, k => k
  | fuel + 1, k => if 10 ^ k % den = 0 then k else decExpAux den fuel (k + 1)

/-- Number of fractional digits of a reduced fraction with denominator `den`
in fixed decimal notation: the least `k` with `den ∣ 10^k`. -/
def decExp (den : ℕ) : ℕ := decExpAux den 1100 0

/-- Base-10 digit count (0 for 0), fuel-based so that it reduces in the kernel. -/
def digitCountAux : ℕ → ℕ → ℕ
  | 0, _ => 0
  | fuel + 1, n => if n = 0 then 0 else digitCountAux fuel (n / 10) + 1

/-- Number of base-10 digits of `n` (`digitCount 0 = 0`). -/
def digitCount (n : ℕ) : ℕ := digitCountAux (n + 1) n

/-- Strips factors of 10 from `n`, fuel-based. -/
def stripTensAux : ℕ → ℕ → ℕ
  | 0, n => n
  | fuel + 1, n => if n ≠ 0 ∧ n % 10 = 0 then stripTensAux fuel (n / 10) else n

/-- The significand of `n` with trailing zeros removed. -/
def stripTens (n : ℕ) : ℕ := stripTensAux n n

/-- Fractional-digit count computed by `Money.create` from the ECMAScript
string of a finite number `q`:
`(q.toString().split('.')[1] || '').length`.
The guard `q.den ≤ 1000000 * q.num.natAbs ∧ q.num.natAbs < 10^21 * q.den` is
the fixed-notation range `1e-6 ≤ |q| < 1e21` cross-multiplied. -/
def jsFracDigits (q : ℚ) : ℕ :=
  if q.num = 0 then 0
  else
    let k := decExp q.den
    let n := q.num.natAbs * (10 ^ k / q.den)
    if q.den ≤ 1000000 * q.num.natAbs ∧ q.num.natAbs < 10 ^ 21 * q.den then
      -- fixed notation: exactly k fractional digits
      k
    else
      -- exponential notation "m.mmm e±x": after the '.' come the mantissa
      -- digits past the first one, then 'e', the sign and the exponent digits;
      -- a one-digit mantissa prints no '.' at all ("1e-7")
      let s := digitCount (stripTens n)
      if s ≤ 1 then 0
      else (s - 1) + 2 + digitCount ((digitCount n : ℤ) - 1 - (k : ℤ)).natAbs

/-- Exact value of `q * 10^e`, computed on the numerator so that it reduces in
the kernel (see `scalePow10_eq`). -/
def scalePow10 (q : ℚ) (e : ℕ) : ℚ := mkRat (q.num * 10 ^ e) q.den

/-- `Math.round x`: nearest integer, ties toward `+∞`, i.e. `⌊x + 1/2⌋`,
computed as an integer floor division (see `jsRound_eq_floor`). -/
def jsRound (x : ℚ) : ℤ := (2 * x.num + x.den) / (2 * x.den)

/-! ### Money (src/wallet-service/src/domain/value-objects/money.vo.ts) -/

/-- `Money`: a monetary amount held as a `bigint` count of `10^-4` units. -/
structure Money where
  amount : ℤ
deriving DecidableEq, Repr

/-- `PRECISION = 4`. -/
def Money.PRECISION : ℕ := 4

/-- `FACTOR = 10 ** PRECISION`. -/
def Money.FACTOR : ℕ := 10 ^ Money.PRECISION

/-- The private `Money` constructor: rejects a negative `bigint` amount. -/
def Money.ctor (amount : ℤ) : Except Err Money :=
  if amount < 0 then .error .negativeAmount else .ok ⟨amount⟩

/-- `Money.create(value)` for a `number` argument (a string argument goes
through `parseFloat` first and then follows the same path; only the numeric
path is modelled): rejects NaN, infinities and negatives, then rejects more
than 4 fractional digits as counted on the `toString()` rendering, then
scales by `FACTOR` with `Math.round` and invokes the constructor. -/
def Money.create (value : JSNum) : Except Err Money :=
  match value with
  | .nan => .error .invalidAmount
  | .posInf => .error .invalidAmount
  | .negInf => .error .invalidAmount
  | .fin q =>
    if q < 0 then .error .invalidAmount
    else if Money.PRECISION < jsFracDigits q then .error .tooManyDecimals
    else Money.ctor (jsRound (scalePow10 q Money.PRECISION))

/-- `isLessThan`. -/
def Money.isLessThan (a b : Money) : Bool := a.amount < b.amount

/-- `isGreaterThan`. -/
def Money.isGreaterThan (a b : Money) : Bool := b.amount < a.amount

/-- `equals`. -/
def Money.equals (a b : Money) : Bool := a.amount == b.amount

/-- `add`: sum on the scaled integers, through the checked constructor. -/
def Money.add (a b : Money) : Except Err Money := Money.ctor (a.amount + b.amount)

/-- `subtract`: throws `insufficientFunds` when `this < other`, otherwise the
difference through the checked constructor. -/
def Money.subtract (a b : Money) : Except Err Money :=
  if a.isLessThan b then .error .insufficientFunds
  else Money.ctor (a.amount - b.amount)

/-- `getValue()`: `Number(amount) / Number(FACTOR)` as an exact rational
(computed with `mkRat` so that it reduces in the kernel; see
`Money.getValue_eq`). -/
def Money.getValue (m : Money) : ℚ := mkRat m.amount Money.FACTOR

/-! ### Bridging lemmas for the integer-level numeric helpers -/

theorem scalePow10_eq (q : ℚ) (e : ℕ) : scalePow10 q e = q * 10 ^ e := by
  rw [scalePow10, Rat.mkRat_eq_divInt, Rat.divInt_eq_div]
  push_cast
  rw [mul_div_right_comm, Rat.num_div_den]

theorem rat_mul_den_eq_num (x : ℚ) : x * (x.den : ℚ) = (x.num : ℚ) := by
  have hden : (x.den : ℚ) ≠ 0 := Nat.cast_ne_zero.mpr x.den_nz
  nth_rewrite 1 [← Rat.num_div_den x]
  exact div_mul_cancel₀ _ hden

theorem jsRound_eq_floor (x : ℚ) : jsRound x = ⌊x + 1 / 2⌋ := by
  have hden : (x.den : ℚ) ≠ 0 := Nat.cast_ne_zero.mpr x.den_nz
  have hx := rat_mul_den_eq_num x
  have h : x + 1 / 2 = ((2 * x.num + (x.den : ℤ) : ℤ) : ℚ) / ((2 * x.den : ℕ) : ℚ) := by
    push_cast
    rw [eq_div_iff (by positivity)]
    linear_combination (2 : ℚ) * hx
  rw [jsRound, h, Rat.floor_intCast_div_natCast]
  push_cast
  rfl

theorem jsRound_of_den_one (x : ℚ) (h : x.den = 1) : jsRound x = x.num := by
  rw [jsRound, h]
  omega

theorem jsRound_nonneg (x : ℚ) (h : 0 ≤ x.num) : 0 ≤ jsRound x := by
  rw [jsRound]
  have : (0 : ℤ) ≤ (x.den : ℤ) := Int.natCast_nonneg _
  exact Int.ediv_nonneg (by omega) (by omega)

theorem Money.getValue_eq (m : Money) : m.getValue = (m.amount : ℚ) / 10000 := by
  rw [Money.getValue, Rat.mkRat_eq_divInt, Rat.divInt_eq_div]
  norm_num [Money.FACTOR, Money.PRECISION]

theorem den_mul_pow10_one_iff (q : ℚ) (e : ℕ) :
    (q * 10 ^ e).den = 1 ↔ q.den ∣ 10 ^ e := by
  constructor
  · intro h
    have hq : q * 10 ^ e = (((q * 10 ^ e).num : ℤ) : ℚ) :=
      ((Rat.den_eq_one_iff _).mp h).symm
    have h10 : (((10 ^ e : ℤ)) : ℚ) ≠ 0 := by positivity
    have hq2 : q = (((q * 10 ^ e).num : ℤ) : ℚ) / ((10 ^ e : ℤ) : ℚ) := by
      rw [eq_div_iff h10]
      push_cast
      push_cast at hq
      linarith [hq]
    have hdvd : ((q.den : ℤ)) ∣ (10 : ℤ) ^ e := by
      have := Rat.den_dvd (q * 10 ^ e).num ((10 : ℤ) ^ e)
      rw [Rat.divInt_eq_div, ← hq2] at this
      exact_mod_cast this
    exact_mod_cast hdvd
  · intro h
    obtain ⟨c, hc⟩ := h
    have hx := rat_mul_den_eq_num q
    have heq : q * 10 ^ e = ((q.num * c : ℤ) : ℚ) := by
      have h10 : ((10 : ℚ) ^ e) = (q.den : ℚ) * (c : ℚ) := by
        have := congrArg (fun n : ℕ => (n : ℚ)) hc
        push_cast at this
        linarith [this]
      rw [h10]
      push_cast
      linear_combination (c : ℚ) * hx
    rw [heq, Rat.den_intCast]

theorem scalePow10_den_one_iff (q : ℚ) (e : ℕ) :
    (scalePow10 q e).den = 1 ↔ q.den ∣ 10 ^ e := by
  rw [scalePow10_eq]
  exact den_mul_pow10_one_iff q e

theorem decExpAux_le (den : ℕ) :
    ∀ (fuel k j : ℕ), j < fuel → den ∣ 10 ^ (k + j) → decExpAux den fuel k ≤ k + j := by
  intro fuel
  induction fuel with
  | zero => intro k j hj _; omega
  | succ f ih =>
    intro k j hj hdvd
    rw [decExpAux]
    by_cases hk : 10 ^ k % den = 0
    · rw [if_pos hk]
      omega
    · rw [if_neg hk]
      match j, hj with
      | 0, _ =>
        exact absurd (Nat.dvd_iff_mod_eq_zero.mp (by simpa using hdvd)) hk
      | j' + 1, hj =>
        have := ih (k + 1) j' (by omega) (by
          have : k + 1 + j' = k + (j' + 1) := by omega
          rw [this]; exact hdvd)
        omega

theorem decExp_le (den e : ℕ) (he : e < 1100) (h : den ∣ 10 ^ e) :
    decExp den ≤ e := by
  have := decExpAux_le den 1100 0 e he (by simpa using h)
  simpa [decExp] using this

/-! ### WalletId (src/unnamed/part_003, wallet-id.vo.ts) -/

/-- `WalletId`: wraps the canonical UUID string. -/
structure WalletId where
  value : String
deriving DecidableEq, Repr

/-- `WalletId.generate()`: wraps the string produced by `crypto.randomUUID()`;
the environment-supplied random string is the explicit `uuid` argument. -/
def WalletId.generate (uuid : String) : WalletId := ⟨uuid⟩

/-- `WalletId.create(value)`: rejects an empty string (`!value`), then — as
written in the source — returns `this.generate()`, discarding `value`. -/
def WalletId.create (value : String) (uuid : String) : Except Err WalletId :=
  if value = "" then .error .invalidWalletId else .ok (WalletId.generate uuid)

/-- `equals`: value comparison of the wrapped strings. -/
def WalletId.equals (a b : WalletId) : Bool := a.value == b.value

/-- `toString()`: the wrapped canonical string. -/
def WalletId.asString (a : WalletId) : String := a.value

/-! ### Wallet (src/unnamed/part_002, wallet.entity.ts) -/

/-- The `Wallet` aggregate.  Timestamps are abstract ticks. -/
structure Wallet where
  id : WalletId
  userId : String
  balance : Money
  version : ℕ
  createdAt : ℕ
  updatedAt : ℕ
deriving DecidableEq, Repr

/-- `Wallet.reconstitute(id, userId, balance, version, createdAt, updatedAt)`:
constructor arguments are evaluated left to right, so `WalletId.create(id)`
runs first (consuming the fresh `uuid`), then `Money.create(balance)`. -/
def Wallet.reconstitute (id userId : String) (balance : JSNum) (version : ℕ)
    (createdAt updatedAt : ℕ) (uuid : String) : Except Err Wallet :=
  match WalletId.create id uuid with
  | .error e => .error e
  | .ok wid =>
    match Money.create balance with
    | .error e => .error e
    | .ok bal => .ok ⟨wid, userId, bal, version, createdAt, updatedAt⟩

/-- `fund(amount)`: `balance = balance.add(amount); version += 1;
updatedAt = new Date()`.  A thrown exception leaves the caller's object
untouched, which the `Except` value models. -/
def Wallet.fund (w : Wallet) (amount : Money) (now : ℕ) : Except Err Wallet :=
  match w.balance.add amount with
  | .error e => .error e
  | .ok b => .ok { w with balance := b, version := w.version + 1, updatedAt := now }

/-- `debit(amount)`: `balance = balance.subtract(amount); version += 1;
updatedAt = new Date()`; `subtract` throws before any field is assigned. -/
def Wallet.debit (w : Wallet) (amount : Money) (now : ℕ) : Except Err Wallet :=
  match w.balance.subtract amount with
  | .error e => .error e
  | .ok b => .ok { w with balance := b, version := w.version + 1, updatedAt := now }

/-- `canDebit(amount)`: `balance.isGreaterThan(amount) || balance.equals(amount)`. -/
def Wallet.canDebit (w : Wallet) (amount : Money) : Bool :=
  w.balance.isGreaterThan amount || w.balance.equals amount

/-- One in-memory wallet mutation request. -/
inductive WalletOp where
  | fund (amount : Money)
  | debit (amount : Money)
deriving DecidableEq, Repr

/-- Executes one operation against a wallet with exception semantics: a thrown
error leaves the caller's wallet exactly as it was. -/
def Wallet.applyOp (w : Wallet) (op : WalletOp) (now : ℕ) : Wallet :=
  match op with
  | .fund a =>
    match w.fund a now with
    | .ok w' => w'
    | .error _ => w
  | .debit a =>
    match w.debit a now with
    | .ok w' => w'
    | .error _ => w

/-- Runs a sequence of timestamped operations left to right. -/
def Wallet.run (w : Wallet) (ops : List (WalletOp × ℕ)) : Wallet :=
  ops.foldl (fun w p => w.applyOp p.1 p.2) w

/-! ### WalletTransaction (src/unnamed/part_002, wallet-transaction.entity.ts) -/

inductive TransactionType where
  | FUND
  | TRANSFER_IN
  | TRANSFER_OUT
deriving DecidableEq, Repr

inductive TransactionStatus where
  | COMPLETED
  | PENDING
  | FAILED
deriving DecidableEq, Repr

/-- `Object.values(TransactionType).includes(type)` validation plus the cast. -/
def TransactionType.ofString (s : String) : Option TransactionType :=
  if s == "FUND" then some .FUND
  else if s == "TRANSFER_IN" then some .TRANSFER_IN
  else if s == "TRANSFER_OUT" then some .TRANSFER_OUT
  else none

/-- `Object.values(TransactionStatus).includes(status)` validation plus the cast. -/
def TransactionStatus.ofString (s : String) : Option TransactionStatus :=
  if s == "COMPLETED" then some .COMPLETED
  else if s == "PENDING" then some .PENDING
  else if s == "FAILED" then some .FAILED
  else none

/-- The immutable `WalletTransaction` ledger record. -/
structure WalletTransaction where
  id : String
  walletId : WalletId
  amount : Money
  type : TransactionType
  status : TransactionStatus
  createdAt : ℕ
deriving DecidableEq, Repr

/-- `WalletTransaction.create`: fresh `randomUUID()` id (the explicit `uuid`
argument) and current timestamp. -/
def WalletTransaction.create (walletId : WalletId) (amount : Money)
    (type : TransactionType) (status : TransactionStatus)
    (uuid : String) (now : ℕ) : WalletTransaction :=
  ⟨uuid, walletId, amount, type, status, now⟩

/-- `WalletTransaction.reconstitute`: validates `type` and `status`, then
builds the record with `id` passed through unchanged, `WalletId.create(walletId)`
(which consumes the fresh `uuid`) and `Money.create(amount)`. -/
def WalletTransaction.reconstitute (id walletId : String) (amount : JSNum)
    (type status : String) (createdAt : ℕ) (uuid : String) :
    Except Err WalletTransaction :=
  match TransactionType.ofString type with
  | none => .error .invalidTxType
  | some ty =>
    match TransactionStatus.ofString status with
    | none => .error .invalidTxStatus
    | some st =>
      match WalletId.create walletId uuid with
      | .error e => .error e
      | .ok wid =>
        match Money.create amount with
        | .error e => .error e
        | .ok m => .ok ⟨id, wid, m, ty, st, createdAt⟩

/-! ### The relational store

One `wallets` row as persisted by the repository (`id` is the association-list
key; `balance` is the DECIMAL(19,4) column value). -/

structure WalletRow where
  userId : String
  balance : ℚ
  version : ℕ
  createdAt : ℕ
  updatedAt : ℕ
deriving DecidableEq, Repr

/-- The `wallets` table: association list keyed by the `id` column. -/
abbrev Store := List (String × WalletRow)

/-- `SELECT ... WHERE id = $1` (the primary key is unique, so the first match
is the row). -/
def Store.findRow (s : Store) (id : String) : Option WalletRow :=
  (s.find? (fun p => p.1 == id)).map (fun p => p.2)

/-- `UPDATE wallets SET balance = $1, version = $2, updated_at = $3 WHERE id = $4`
(the row's `user_id` and `created_at` columns are untouched). -/
def Store.updateRow (s : Store) (id : String) (balance : ℚ) (version : ℕ)
    (updatedAt : ℕ) : Store :=
  s.map (fun p =>
    if p.1 == id then
      (p.1, { p.2 with balance := balance, version := version, updatedAt := updatedAt })
    else p)

/-! ### WalletRepository
(src/wallet-service/src/infrastructure/database/repositories/wallet.repository.ts) -/

/-- `WalletRepository.save(wallet, client)` from wallet.repository.ts lines
38–93.  `tx` is the view of the caller's open unit of work (the `client` /
`executor` connection); `pool` is the committed view seen by `this.db.query`
on a separate pooled autocommit connection — which is what the source uses for
the zero-rows disambiguation re-read.  Returns the updated transaction view. -/
def WalletRepository.save (w : Wallet) (tx pool : Store) : Except Err Store :=
  if w.version = 0 then
    -- INSERT INTO wallets ...; a duplicate primary key raises an SQL error
    if (tx.findRow w.id.value).isSome then .error .duplicateKey
    else .ok (tx ++ [(w.id.value,
      ⟨w.userId, w.balance.getValue, w.version, w.createdAt, w.updatedAt⟩)])
  else
    -- UPDATE ... WHERE id = $4 AND version = $5  (previousVersion = version - 1)
    match tx.findRow w.id.value with
    | some row =>
      if row.version = w.version - 1 then
        .ok (tx.updateRow w.id.value w.balance.getValue w.version w.updatedAt)
      else
        -- rowCount = 0: re-read through this.db (the POOL, not the client)
        match pool.findRow w.id.value with
        | none => .error .walletNotFound
        | some _ => .error .optimisticLockConflict
    | none =>
      match pool.findRow w.id.value with
      | none => .error .walletNotFound
      | some _ => .error .optimisticLockConflict

/-- The `save` variant of src/unnamed/part_001 lines 146–201 as called with a
`client`: there the zero-rows re-read goes through `executor.query`, i.e. the
same connection and unit of work as the attempted UPDATE, so both the write
and the disambiguation read see the single view `exec`. -/
def WalletRepositoryPart001.save (w : Wallet) (exec : Store) : Except Err Store :=
  if w.version = 0 then
    if (exec.findRow w.id.value).isSome then .error .duplicateKey
    else .ok (exec ++ [(w.id.value,
      ⟨w.userId, w.balance.getValue, w.version, w.createdAt, w.updatedAt⟩)])
  else
    match exec.findRow w.id.value with
    | some row =>
      if row.version = w.version - 1 then
        .ok (exec.updateRow w.id.value w.balance.getValue w.version w.updatedAt)
      else .error .optimisticLockConflict
    | none => .error .walletNotFound

/-- `WalletRepository.findByIdForUpdate(walletId, client)`: `SELECT ... FOR
UPDATE` on the transaction's view, then `Wallet.reconstitute` on the row (the
selected row's `id` column equals the queried id).  The fresh `uuid` feeds the
`WalletId.create` call inside `reconstitute`. -/
def WalletRepository.findByIdForUpdate (tx : Store) (walletId : WalletId)
    (uuid : String) : Except Err (Option Wallet) :=
  match tx.findRow walletId.value with
  | none => .ok none
  | some row =>
    match Wallet.reconstitute walletId.value row.userId (.fin row.balance)
        row.version row.createdAt row.updatedAt uuid with
    | .error e => .error e
    | .ok w => .ok (some w)

/-- `WalletTransactionRepository.save`: append-only INSERT into
`wallet_transactions`; a duplicate id raises the primary-key error. -/
def WalletTransactionRepository.save (t : WalletTransaction)
    (txs : List WalletTransaction) : Except Err (List WalletTransaction) :=
  if txs.any (fun t' => t'.id == t.id) then .error .duplicateKey
  else .ok (txs ++ [t])

/-! ### WalletService.transfer
(src/wallet-service/src/application/services/wallet.service.ts lines 71–156) -/

/-- Database state visible to one unit of work: the `wallets` table and the
`wallet_transactions` table. -/
structure DBState where
  wallets : Store
  transactions : List WalletTransaction
deriving DecidableEq, Repr

/-- Strict lexicographic order on code points, on the character lists. -/
def strLtAux : List Char → List Char → Bool
  | [], [] => false
  | [], _ :: _ => true
  | _ :: _, [] => false
  | c :: cs, d :: ds =>
    if c.toNat < d.toNat then true
    else if d.toNat < c.toNat then false
    else strLtAux cs ds

/-- Strict lexicographic order on strings by code points.  This is the order
`localeCompare` and the default array sort induce on canonical UUID strings
(equal length, identical dash positions, digits and lowercase hex letters, on
which default-locale collation and code-unit comparison agree). -/
def strLt (a b : String) : Bool := strLtAux a.data b.data

/-- `[fromWalletId, toWalletId].sort((a, b) => a.toString().localeCompare(b.toString()))`
for the two-element array: the pair in ascending comparator order. -/
def WalletService.lockOrder (fromWalletId toWalletId : WalletId) :
    WalletId × WalletId :=
  if strLt toWalletId.value fromWalletId.value then (toWalletId, fromWalletId)
  else (fromWalletId, toWalletId)

/-- `[fromwalletId, toWalletId].sort()` in `WalletRepository.transferMoney`
(wallet.repository.ts lines 221–232): the default comparator sorts by the
`String(x)` conversion, i.e. by `toString()`, again code-unit lexicographic. -/
def WalletRepository.transferMoneyLockOrder (fromWalletId toWalletId : WalletId) :
    WalletId × WalletId :=
  if strLt toWalletId.value fromWalletId.value then (toWalletId, fromWalletId)
  else (fromWalletId, toWalletId)

/-- Lines 101–111: after both locked loads, re-derive sender and receiver by
testing `wallet1.getId().equals(fromWalletId)`.  Returns
`(fromWallet, toWallet)`. -/
def WalletService.transferSelect (wallet1 wallet2 : Wallet)
    (fromWalletId : WalletId) : Wallet × Wallet :=
  if wallet1.id.equals fromWalletId then (wallet1, wallet2) else (wallet2, wallet1)

/-- `WalletService.transfer(fromWalletId, toWalletId, amount)`.  The four
`uuid` arguments are the `crypto.randomUUID()` results consumed, in order, by
the two `findByIdForUpdate` reconstitutions and the two
`WalletTransaction.create` calls.  The unit of work starts from the committed
state `db`; `db.wallets` also serves as the pool view for `save`'s
disambiguation re-read (no concurrent writer is modelled).  An error anywhere
rolls the whole unit of work back, which returning `Except.error` models. -/
def WalletService.transfer (fromWalletId toWalletId : WalletId) (amount : Money)
    (db : DBState) (u1 u2 u3 u4 : String) (now : ℕ) : Except Err DBState :=
  if fromWalletId.equals toWalletId then .error .selfTransfer
  else
    let ids := WalletService.lockOrder fromWalletId toWalletId
    match WalletRepository.findByIdForUpdate db.wallets ids.1 u1 with
    | .error e => .error e
    | .ok none => .error .walletNotFoundService
    | .ok (some wallet1) =>
      match WalletRepository.findByIdForUpdate db.wallets ids.2 u2 with
      | .error e => .error e
      | .ok none => .error .walletNotFoundService
      | .ok (some wallet2) =>
        let sel := WalletService.transferSelect wallet1 wallet2 fromWalletId
        if !(sel.1.canDebit amount) then .error .insufficientFundsTransfer
        else
          match sel.1.debit amount now with
          | .error e => .error e
          | .ok fromWallet' =>
            match sel.2.fund amount now with
            | .error e => .error e
            | .ok toWallet' =>
              match WalletRepository.save fromWallet' db.wallets db.wallets with
              | .error e => .error e
              | .ok s1 =>
                match WalletRepository.save toWallet' s1 db.wallets with
                | .error e => .error e
                | .ok s2 =>
                  let outTx := WalletTransaction.create fromWalletId amount
                    .TRANSFER_OUT .COMPLETED u3 now
                  match WalletTransactionRepository.save outTx db.transactions with
                  | .error e => .error e
                  | .ok l1 =>
                    let inTx := WalletTransaction.create toWalletId amount
                      .TRANSFER_IN .COMPLETED u4 now
                    match WalletTransactionRepository.save inTx l1 with
                    | .error e => .error e
                    | .ok l2 => .ok ⟨s2, l2⟩

/-! ### Wallet-aggregate lemmas -/

theorem Wallet.fund_ok_iff (w : Wallet) (a : Money) (t : ℕ) (w' : Wallet) :
    w.fund a t = .ok w' ↔
      ¬ w.balance.amount + a.amount < 0
      ∧ w' = { w with balance := ⟨w.balance.amount + a.amount⟩,
                      version := w.version + 1, updatedAt := t } := by
  rw [Wallet.fund, Money.add, Money.ctor]
  split_ifs with h
  · simp [h]
  · simp [h, eq_comm]

theorem Wallet.debit_ok_iff (w : Wallet) (a : Money) (t : ℕ) (w' : Wallet) :
    w.debit a t = .ok w' ↔
      a.amount ≤ w.balance.amount
      ∧ w' = { w with balance := ⟨w.balance.amount - a.amount⟩,
                      version := w.version + 1, updatedAt := t } := by
  rw [Wallet.debit, Money.subtract, Money.isLessThan]
  split_ifs with h
  · simp at h
    simp [h]
  · simp at h
    rw [Money.ctor, if_neg (by omega)]
    simp [h, eq_comm]

theorem Wallet.debit_error_iff (w : Wallet) (a : Money) (t : ℕ) (e : Err) :
    w.debit a t = .error e ↔ w.balance.amount < a.amount ∧ e = .insufficientFunds := by
  rw [Wallet.debit, Money.subtract, Money.isLessThan]
  split_ifs with h
  · simp at h
    simp [h, eq_comm]
  · simp at h
    rw [Money.ctor, if_neg (by omega)]
    simp
    omega

theorem Wallet.canDebit_iff (w : Wallet) (a : Money) :
    w.canDebit a = true ↔ a.amount ≤ w.balance.amount := by
  rw [Wallet.canDebit, Money.isGreaterThan, Money.equals]
  simp [Bool.or_eq_true]
  omega

theorem Wallet.applyOp_balance_nonneg (w : Wallet) (op : WalletOp) (t : ℕ)
    (h : 0 ≤ w.balance.amount) : 0 ≤ (w.applyOp op t).balance.amount := by
  cases op with
  | fund a =>
    rw [Wallet.applyOp]
    cases hf : w.fund a t with
    | error e => exact h
    | ok w' =>
      obtain ⟨hnn, hw'⟩ := (Wallet.fund_ok_iff w a t w').mp hf
      rw [hw']
      simpa using (by omega : (0 : ℤ) ≤ w.balance.amount + a.amount)
  | debit a =>
    rw [Wallet.applyOp]
    cases hf : w.debit a t with
    | error e => exact h
    | ok w' =>
      obtain ⟨hle, hw'⟩ := (Wallet.debit_ok_iff w a t w').mp hf
      rw [hw']
      simpa using (by omega : (0 : ℤ) ≤ w.balance.amount - a.amount)

theorem Wallet.run_balance_nonneg (w : Wallet) (ops : List (WalletOp × ℕ))
    (h : 0 ≤ w.balance.amount) : 0 ≤ (w.run ops).balance.amount := by
  induction ops generalizing w with
  | nil => exact h
  | cons p ps ih =>
    rw [Wallet.run, List.foldl_cons]
    exact ih _ (Wallet.applyOp_balance_nonneg w p.1 p.2 h)

theorem Wallet.applyOp_version_mono (w : Wallet) (op : WalletOp) (t : ℕ) :
    w.version ≤ (w.applyOp op t).version := by
  cases op with
  | fund a =>
    rw [Wallet.applyOp]
    cases hf : w.fund a t with
    | error e => exact le_refl _
    | ok w' =>
      obtain ⟨_, hw'⟩ := (Wallet.fund_ok_iff w a t w').mp hf
      subst hw'
      exact Nat.le_succ _
  | debit a =>
    rw [Wallet.applyOp]
    cases hf : w.debit a t with
    | error e => exact le_refl _
    | ok w' =>
      obtain ⟨_, hw'⟩ := (Wallet.debit_ok_iff w a t w').mp hf
      subst hw'
      exact Nat.le_succ _

theorem Wallet.run_version_mono (w : Wallet) (ops : List (WalletOp × ℕ)) :
    w.version ≤ (w.run ops).version := by
  induction ops generalizing w with
  | nil => exact le_refl _
  | cons p ps ih =>
    rw [Wallet.run, List.foldl_cons]
    exact le_trans (Wallet.applyOp_version_mono w p.1 p.2) (ih _)

/-! ### Claim theorems for the wallet aggregate -/

/-- Claim C3: for every wallet and every sequence of fund and debit operations,
the balance stays non-negative after each operation (every prefix of a
sequence is itself a sequence, and single steps preserve non-negativity), and
a debit that would make the balance negative throws `InsufficientFunds` and
leaves the wallet — balance included — exactly unchanged. -/
theorem claim_C3_balance_invariant (w : Wallet) (op : WalletOp)
    (ops : List (WalletOp × ℕ)) (a : Money) (t : ℕ)
    (hw : 0 ≤ w.balance.amount) :
    0 ≤ (w.applyOp op t).balance.amount
    ∧ 0 ≤ (w.run ops).balance.amount
    ∧ (w.balance.amount < a.amount →
        w.debit a t = .error .insufficientFunds ∧ w.applyOp (.debit a) t = w) := by
  refine ⟨Wallet.applyOp_balance_nonneg w op t hw,
          Wallet.run_balance_nonneg w ops hw, fun hlt => ⟨?_, ?_⟩⟩
  · exact (Wallet.debit_error_iff w a t _).mpr ⟨hlt, rfl⟩
  · rw [Wallet.applyOp, (Wallet.debit_error_iff w a t .insufficientFunds).mpr ⟨hlt, rfl⟩]

/-- Witness for C3 at a concrete wallet: balance 70.0000, one funding step and
a two-step sequence keep the balance non-negative, and an attempted debit of
100.0000 fails leaving the wallet unchanged. -/
theorem claim_C3_witness :
    0 ≤ ((Wallet.mk ⟨"w1"⟩ "alice" ⟨700000⟩ 2 0 0).applyOp (.fund ⟨100⟩) 3).balance.amount
    ∧ 0 ≤ ((Wallet.mk ⟨"w1"⟩ "alice" ⟨700000⟩ 2 0 0).run
        [(.debit ⟨700000⟩, 3), (.debit ⟨1⟩, 4)]).balance.amount
    ∧ ((Wallet.mk ⟨"w1"⟩ "alice" ⟨700000⟩ 2 0 0).debit ⟨1000000⟩ 3
          = .error .insufficientFunds
        ∧ (Wallet.mk ⟨"w1"⟩ "alice" ⟨700000⟩ 2 0 0).applyOp (.debit ⟨1000000⟩) 3
          = Wallet.mk ⟨"w1"⟩ "alice" ⟨700000⟩ 2 0 0) := by
  have h := claim_C3_balance_invariant (Wallet.mk ⟨"w1"⟩ "alice" ⟨700000⟩ 2 0 0)
    (.fund ⟨100⟩) [(.debit ⟨700000⟩, 3), (.debit ⟨1⟩, 4)] ⟨1000000⟩ 3 (by decide)
  exact ⟨h.1, h.2.1, h.2.2 (by decide)⟩

/-- Claim C4: `debit(amount)` fails — with the `InsufficientFunds` error and
no other — exactly when `balance < amount`, the negation of the pure predicate
`canDebit(amount) = (balance ≥ amount)`; a failed debit leaves the wallet
exactly unchanged, and a successful one decreases the balance by exactly
`amount`, increments `version` and sets `updatedAt` to the current tick. -/
theorem claim_C4_debit_contract (w : Wallet) (a : Money) (t : ℕ) :
    (w.canDebit a = true ↔ a.amount ≤ w.balance.amount)
    ∧ (w.debit a t = .error .insufficientFunds ↔ w.balance.amount < a.amount)
    ∧ (∀ e, w.debit a t = .error e →
        e = .insufficientFunds ∧ w.applyOp (.debit a) t = w)
    ∧ (a.amount ≤ w.balance.amount →
        w.debit a t = .ok { w with balance := ⟨w.balance.amount - a.amount⟩,
                                   version := w.version + 1, updatedAt := t }) := by
  refine ⟨Wallet.canDebit_iff w a, ?_, fun e he => ?_, fun hle => ?_⟩
  · rw [Wallet.debit_error_iff]
    simp
  · obtain ⟨hlt, he'⟩ := (Wallet.debit_error_iff w a t e).mp he
    subst he'
    exact ⟨rfl, by rw [Wallet.applyOp, he]⟩
  · exact (Wallet.debit_ok_iff w a t _).mpr ⟨hle, rfl⟩

/-- Witness for C4 at a concrete wallet with balance 100.0000: `canDebit`
agrees with the balance comparison, a debit of 30.0000 succeeds with the exact
field changes, and a debit of 200.0000 fails with `InsufficientFunds`. -/
theorem claim_C4_witness :
    ((Wallet.mk ⟨"w1"⟩ "alice" ⟨1000000⟩ 1 0 0).canDebit ⟨300000⟩ = true
      ↔ (300000 : ℤ) ≤ 1000000)
    ∧ (Wallet.mk ⟨"w1"⟩ "alice" ⟨1000000⟩ 1 0 0).debit ⟨300000⟩ 5
        = .ok (Wallet.mk ⟨"w1"⟩ "alice" ⟨700000⟩ 2 0 5)
    ∧ ((Wallet.mk ⟨"w1"⟩ "alice" ⟨1000000⟩ 1 0 0).debit ⟨2000000⟩ 5
        = .error .insufficientFunds ↔ (1000000 : ℤ) < 2000000) := by
  have h1 := claim_C4_debit_contract (Wallet.mk ⟨"w1"⟩ "alice" ⟨1000000⟩ 1 0 0) ⟨300000⟩ 5
  have h2 := claim_C4_debit_contract (Wallet.mk ⟨"w1"⟩ "alice" ⟨1000000⟩ 1 0 0) ⟨2000000⟩ 5
  exact ⟨h1.1, h1.2.2.2 (by decide), h2.2.1⟩

/-- Claim C5: each successful `fund` or `debit` increments `version` by
exactly 1, a failed debit leaves the version unchanged, and no operation
sequence ever decreases the version. -/
theorem claim_C5_version_counter (w : Wallet) (a : Money) (t : ℕ)
    (ops : List (WalletOp × ℕ)) :
    (∀ w', w.fund a t = .ok w' → w'.version = w.version + 1)
    ∧ (∀ w', w.debit a t = .ok w' → w'.version = w.version + 1)
    ∧ (∀ e, w.debit a t = .error e → (w.applyOp (.debit a) t).version = w.version)
    ∧ w.version ≤ (w.run ops).version := by
  refine ⟨fun w' hf => ?_, fun w' hd => ?_, fun e he => ?_,
          Wallet.run_version_mono w ops⟩
  · obtain ⟨_, hw'⟩ := (Wallet.fund_ok_iff w a t w').mp hf
    rw [hw']
  · obtain ⟨_, hw'⟩ := (Wallet.debit_ok_iff w a t w').mp hd
    rw [hw']
  · rw [Wallet.applyOp, he]

/-- Witness for C5 at a concrete wallet: a successful fund and a successful
debit both bump the version from 1 to 2, a failed debit leaves it at 1, and a
three-step run never lowers it. -/
theorem claim_C5_witness :
    ((Wallet.mk ⟨"w1"⟩ "bob" ⟨500000⟩ 1 0 0).fund ⟨300000⟩ 7
        = .ok (Wallet.mk ⟨"w1"⟩ "bob" ⟨800000⟩ 2 0 7)
      → (Wallet.mk ⟨"w1"⟩ "bob" ⟨800000⟩ 2 0 7).version = 2)
    ∧ ((Wallet.mk ⟨"w1"⟩ "bob" ⟨500000⟩ 1 0 0).applyOp (.debit ⟨600000⟩) 7).version = 1
    ∧ (Wallet.mk ⟨"w1"⟩ "bob" ⟨500000⟩ 1 0 0).version
        ≤ ((Wallet.mk ⟨"w1"⟩ "bob" ⟨500000⟩ 1 0 0).run
            [(.fund ⟨1⟩, 1), (.debit ⟨900000⟩, 2), (.debit ⟨2⟩, 3)]).version := by
  have h := claim_C5_version_counter (Wallet.mk ⟨"w1"⟩ "bob" ⟨500000⟩ 1 0 0) ⟨600000⟩ 7
    [(.fund ⟨1⟩, 1), (.debit ⟨900000⟩, 2), (.debit ⟨2⟩, 3)]
  refine ⟨fun hf => ?_, ?_, h.2.2.2⟩
  · have := claim_C5_version_counter (Wallet.mk ⟨"w1"⟩ "bob" ⟨500000⟩ 1 0 0) ⟨300000⟩ 7 []
    exact this.1 _ hf
  · exact h.2.2.1 .insufficientFunds (by decide)

/-- Claim C8 counterexample: `Money.create(0)` succeeds (zero passes every
validation in `Money.create`) and funding a wallet with the zero amount is
not rejected — it succeeds, leaves the balance unchanged and increments the
version — refuting "a fund with a zero amount is rejected by amount validation
before any mutation". -/
theorem claim_C8_counterexample :
    Money.create (.fin 0) = .ok ⟨0⟩
    ∧ Wallet.fund ⟨⟨"w1"⟩, "alice", ⟨700000⟩, 2, 0, 0⟩ ⟨0⟩ 9
        = .ok ⟨⟨"w1"⟩, "alice", ⟨700000⟩, 3, 0, 9⟩ := by
  exact ⟨by decide, by decide⟩

/-- Claim C8 as amended: `Money.create` rejects negative (and NaN and
infinite) amounts but accepts zero, and `Wallet.fund` with any constructed
(non-negative) `Money` — zero included — succeeds with no other failure path,
increasing the balance by exactly the amount, incrementing the version by 1
and refreshing `updatedAt`. -/
theorem claim_C8_amended (w : Wallet) (a : Money) (t : ℕ) (q : ℚ)
    (hw : 0 ≤ w.balance.amount) (ha : 0 ≤ a.amount) (hq : q < 0) :
    w.fund a t = .ok { w with balance := ⟨w.balance.amount + a.amount⟩,
                              version := w.version + 1, updatedAt := t }
    ∧ Money.create (.fin q) = .error .invalidAmount := by
  constructor
  · exact (Wallet.fund_ok_iff w a t _).mpr ⟨by omega, rfl⟩
  · rw [Money.create, if_pos hq]

/-- Witness for C8 as amended: funding the concrete wallet with 25.0000
produces exactly the stated balance, version and timestamp, and
`Money.create(-1)` is rejected. -/
theorem claim_C8_witness :
    Wallet.fund ⟨⟨"w1"⟩, "alice", ⟨700000⟩, 2, 0, 0⟩ ⟨250000⟩ 4
        = .ok ⟨⟨"w1"⟩, "alice", ⟨950000⟩, 3, 0, 4⟩
    ∧ Money.create (.fin (-1)) = .error .invalidAmount := by
  have h := claim_C8_amended ⟨⟨"w1"⟩, "alice", ⟨700000⟩, 2, 0, 0⟩ ⟨250000⟩ 4 (-1)
    (by decide) (by decide) (by decide)
  exact h

/-! ### Lexicographic-order lemmas for the lock-ordering claims -/

theorem strLtAux_asymm : ∀ xs ys, strLtAux xs ys = true → strLtAux ys xs = false
  | [], [] => by simp [strLtAux]
  | [], _ :: _ => by simp [strLtAux]
  | _ :: _, [] => by simp [strLtAux]
  | c :: cs, d :: ds => by
    rw [strLtAux, strLtAux]
    intro h
    by_cases h1 : c.toNat < d.toNat
    · rw [if_neg (show ¬ d.toNat < c.toNat by omega), if_pos h1]
    · by_cases h2 : d.toNat < c.toNat
      · rw [if_neg h1, if_pos h2] at h
        exact absurd h (by simp)
      · rw [if_neg h1, if_neg h2] at h
        rw [if_neg h2, if_neg h1]
        exact strLtAux_asymm cs ds h

theorem strLtAux_conn : ∀ xs ys, strLtAux xs ys = false → strLtAux ys xs = false →
    xs = ys
  | [], [] => fun _ _ => rfl
  | [], _ :: _ => by simp [strLtAux]
  | _ :: _, [] => by simp [strLtAux]
  | c :: cs, d :: ds => by
    rw [strLtAux, strLtAux]
    intro h1 h2
    by_cases hcd : c.toNat < d.toNat
    · rw [if_pos hcd] at h1
      exact absurd h1 (by simp)
    · by_cases hdc : d.toNat < c.toNat
      · rw [if_pos hdc] at h2
        exact absurd h2 (by simp)
      · rw [if_neg hcd, if_neg hdc] at h1
        rw [if_neg hdc, if_neg hcd] at h2
        have hnat : c.toNat = d.toNat := by omega
        have hc : c = d := Char.ext (UInt32.toNat.inj hnat)
        rw [hc, strLtAux_conn cs ds h1 h2]

theorem strLt_asymm (a b : String) (h : strLt a b = true) : strLt b a = false :=
  strLtAux_asymm a.data b.data h

theorem strLt_conn (a b : String) (h1 : strLt a b = false)
    (h2 : strLt b a = false) : a = b := by
  cases a with
  | mk la =>
    cases b with
    | mk lb =>
      rw [strLtAux_conn la lb h1 h2]

/-- Claim C7: both lock-ordering sites — the `localeCompare` sort in
`WalletService.transfer` (whose two `findByIdForUpdate` calls then run on the
sorted pair in order) and the default sort in
`WalletRepository.transferMoney` — order any two distinct wallet ids into the
same pair, strictly ascending in the lexicographic order of the canonical
string forms and independent of which id is source and which destination, so
transfers A→B and B→A acquire locks in the same global order. -/
theorem claim_C7_deterministic_lock_order (a b : WalletId) (h : a ≠ b) :
    WalletService.lockOrder a b = WalletService.lockOrder b a
    ∧ strLt (WalletService.lockOrder a b).1.value
        (WalletService.lockOrder a b).2.value = true
    ∧ WalletRepository.transferMoneyLockOrder a b = WalletService.lockOrder a b
    ∧ WalletRepository.transferMoneyLockOrder b a = WalletService.lockOrder a b := by
  have hv : a.value ≠ b.value := by
    intro hval
    exact h (by cases a; cases b; simp_all)
  rw [WalletService.lockOrder, WalletService.lockOrder,
    WalletRepository.transferMoneyLockOrder, WalletRepository.transferMoneyLockOrder]
  by_cases hab : strLt a.value b.value = true
  · have hba : strLt b.value a.value = false := strLt_asymm _ _ hab
    rw [if_neg (by rw [hba]; simp), if_pos hab]
    exact ⟨rfl, hab, rfl, rfl⟩
  · have hab' : strLt a.value b.value = false := by
      cases hx : strLt a.value b.value
      · rfl
      · exact absurd hx hab
    have hba : strLt b.value a.value = true := by
      cases hx : strLt b.value a.value
      · exact absurd (strLt_conn a.value b.value hab' hx) hv
      · rfl
    rw [if_pos hba, if_neg (by rw [hab']; simp)]
    exact ⟨rfl, hba, rfl, rfl⟩

/-- Witness for C7 on the concrete distinct pair "aaa", "bbb": both call sites
produce the same ascending pair regardless of direction. -/
theorem claim_C7_witness :
    WalletService.lockOrder ⟨"aaa"⟩ ⟨"bbb"⟩ = WalletService.lockOrder ⟨"bbb"⟩ ⟨"aaa"⟩
    ∧ strLt (WalletService.lockOrder ⟨"aaa"⟩ ⟨"bbb"⟩).1.value
        (WalletService.lockOrder ⟨"aaa"⟩ ⟨"bbb"⟩).2.value = true
    ∧ WalletRepository.transferMoneyLockOrder ⟨"aaa"⟩ ⟨"bbb"⟩
        = WalletService.lockOrder ⟨"aaa"⟩ ⟨"bbb"⟩
    ∧ WalletRepository.transferMoneyLockOrder ⟨"bbb"⟩ ⟨"aaa"⟩
        = WalletService.lockOrder ⟨"aaa"⟩ ⟨"bbb"⟩ :=
  claim_C7_deterministic_lock_order ⟨"aaa"⟩ ⟨"bbb"⟩ (by decide)

/-- Claim C2 counterexample: `WalletTransaction.reconstitute` passes the
stored transaction id through unchanged — the reconstituted entity's id
equals the stored id "tx1" it was given, refuting "WalletTransaction.reconstitute
produces entities whose id differs from the stored id they were given" (it is
the `walletId` reference, not the record's own id, that gets replaced by the
fresh UUID "u9"). -/
theorem claim_C2_counterexample :
    WalletTransaction.reconstitute "tx1" "w1" (.fin (mkRat 5 1)) "FUND" "COMPLETED" 3 "u9"
      = .ok ⟨"tx1", ⟨"u9"⟩, ⟨50000⟩, .FUND, .COMPLETED, 3⟩
    ∧ (WalletTransaction.mk "tx1" ⟨"u9"⟩ ⟨50000⟩ .FUND .COMPLETED 3).id = "tx1" := by
  exact ⟨by decide, rfl⟩

/-- Claim C2 as amended: `WalletId.create(value)` rejects only the empty
string and otherwise returns the freshly generated UUID wrapper, independent
of `value`; consequently `Wallet.reconstitute` produces a wallet whose id is
the fresh UUID (differing from the stored id whenever the UUID differs), and
`WalletTransaction.reconstitute` keeps its given record id but wraps a
`walletId` equal to the fresh UUID (differing from the stored wallet id
whenever the UUID differs). -/
theorem claim_C2_amended :
    (∀ v v' uuid : String, v ≠ "" → v' ≠ "" →
      WalletId.create v uuid = .ok (WalletId.generate uuid)
      ∧ WalletId.create v uuid = WalletId.create v' uuid)
    ∧ (∀ id userId bal ver c u uuid w,
        Wallet.reconstitute id userId bal ver c u uuid = .ok w →
        w.id.value = uuid ∧ (uuid ≠ id → w.id.value ≠ id))
    ∧ (∀ id wid amt ty st c uuid tx,
        WalletTransaction.reconstitute id wid amt ty st c uuid = .ok tx →
        tx.id = id ∧ tx.walletId.value = uuid ∧ (uuid ≠ wid → tx.walletId.value ≠ wid)) := by
  refine ⟨fun v v' uuid hv hv' => ?_, fun id userId bal ver c u uuid w hw => ?_,
          fun id wid amt ty st c uuid tx htx => ?_⟩
  · rw [WalletId.create, WalletId.create, if_neg hv, if_neg hv']
    exact ⟨rfl, rfl⟩
  · by_cases hid : id = ""
    · rw [Wallet.reconstitute, WalletId.create, if_pos hid] at hw
      exact absurd hw (by simp)
    · rw [Wallet.reconstitute, WalletId.create, if_neg hid] at hw
      cases hm : Money.create bal with
      | error e =>
        rw [hm] at hw
        exact absurd hw (by simp)
      | ok m =>
        rw [hm] at hw
        simp only [WalletId.generate, Except.ok.injEq] at hw
        subst hw
        exact ⟨rfl, fun hne => hne⟩
  · rw [WalletTransaction.reconstitute] at htx
    cases hty : TransactionType.ofString ty with
    | none =>
      rw [hty] at htx
      exact absurd htx (by simp)
    | some ty' =>
      rw [hty] at htx
      cases hst : TransactionStatus.ofString st with
      | none =>
        rw [hst] at htx
        exact absurd htx (by simp)
      | some st' =>
        rw [hst] at htx
        by_cases hid : wid = ""
        · rw [WalletId.create, if_pos hid] at htx
          exact absurd htx (by simp)
        · rw [WalletId.create, if_neg hid] at htx
          cases hm : Money.create amt with
          | error e =>
            rw [hm] at htx
            exact absurd htx (by simp)
          | ok m =>
            rw [hm] at htx
            simp only [WalletId.generate, Except.ok.injEq] at htx
            subst htx
            exact ⟨rfl, rfl, fun hne => hne⟩

/-- Witness for C2 as amended, at concrete inputs: `WalletId.create` ignores
its value argument, `Wallet.reconstitute` of stored id "w1" yields id "u7",
and `WalletTransaction.reconstitute` of stored ids ("tx1", "w1") keeps id
"tx1" but wraps walletId "u9". -/
theorem claim_C2_witness :
    (WalletId.create "w1" "u7" = .ok (WalletId.generate "u7")
      ∧ WalletId.create "w1" "u7" = WalletId.create "completely-different" "u7")
    ∧ ((Wallet.mk ⟨"u7"⟩ "alice" ⟨1000000⟩ 4 0 0).id.value = "u7"
      ∧ (Wallet.mk ⟨"u7"⟩ "alice" ⟨1000000⟩ 4 0 0).id.value ≠ "w1")
    ∧ ((WalletTransaction.mk "tx1" ⟨"u9"⟩ ⟨50000⟩ .FUND .COMPLETED 3).id = "tx1"
      ∧ (WalletTransaction.mk "tx1" ⟨"u9"⟩ ⟨50000⟩ .FUND .COMPLETED 3).walletId.value = "u9"
      ∧ (WalletTransaction.mk "tx1" ⟨"u9"⟩ ⟨50000⟩ .FUND .COMPLETED 3).walletId.value ≠ "w1") := by
  have h := claim_C2_amended
  have h1 := h.1 "w1" "completely-different" "u7" (by decide) (by decide)
  have h2 := h.2.1 "w1" "alice" (.fin (mkRat 100 1)) 4 0 0 "u7"
    (Wallet.mk ⟨"u7"⟩ "alice" ⟨1000000⟩ 4 0 0) (by decide)
  have h3 := h.2.2 "tx1" "w1" (.fin (mkRat 5 1)) "FUND" "COMPLETED" 3 "u9"
    (WalletTransaction.mk "tx1" ⟨"u9"⟩ ⟨50000⟩ .FUND .COMPLETED 3) (by decide)
  exact ⟨h1, ⟨h2.1, h2.2 (by decide)⟩, ⟨h3.1, h3.2.1, h3.2.2 (by decide)⟩⟩

/-- Claim C1: evaluated on the two-wallet store with rows "aaa" (alice,
100.0000, version 1) and "bbb" (bob, 50.0000, version 1), a transfer of
30.0000 from "aaa" to "bbb" with fresh UUIDs "u1", "u2" mis-selects the
debited aggregate: both locked loads reconstitute wallets whose ids are the
fresh UUIDs (not the stored ids), so `wallet1.getId().equals(fromWalletId)`
is false and `transferSelect` picks wallet2 — the aggregate loaded from the
destination row "bbb" (bob) — as the debit source, refuting "the aggregate
that is debited is the loaded wallet whose id equals the caller-specified
fromId"; the subsequent saves then address the random ids and the whole
transfer aborts with the wallet-not-found error. -/
theorem claim_C1_transfer_misselects_source :
    WalletRepository.findByIdForUpdate
        [("aaa", ⟨"alice", mkRat 100 1, 1, 0, 0⟩), ("bbb", ⟨"bob", mkRat 50 1, 1, 0, 0⟩)]
        ⟨"aaa"⟩ "u1"
      = .ok (some ⟨⟨"u1"⟩, "alice", ⟨1000000⟩, 1, 0, 0⟩)
    ∧ WalletRepository.findByIdForUpdate
        [("aaa", ⟨"alice", mkRat 100 1, 1, 0, 0⟩), ("bbb", ⟨"bob", mkRat 50 1, 1, 0, 0⟩)]
        ⟨"bbb"⟩ "u2"
      = .ok (some ⟨⟨"u2"⟩, "bob", ⟨500000⟩, 1, 0, 0⟩)
    ∧ WalletService.lockOrder ⟨"aaa"⟩ ⟨"bbb"⟩ = (⟨"aaa"⟩, ⟨"bbb"⟩)
    ∧ WalletService.transferSelect ⟨⟨"u1"⟩, "alice", ⟨1000000⟩, 1, 0, 0⟩
        ⟨⟨"u2"⟩, "bob", ⟨500000⟩, 1, 0, 0⟩ ⟨"aaa"⟩
      = (⟨⟨"u2"⟩, "bob", ⟨500000⟩, 1, 0, 0⟩, ⟨⟨"u1"⟩, "alice", ⟨1000000⟩, 1, 0, 0⟩)
    ∧ WalletService.transfer ⟨"aaa"⟩ ⟨"bbb"⟩ ⟨300000⟩
        ⟨[("aaa", ⟨"alice", mkRat 100 1, 1, 0, 0⟩), ("bbb", ⟨"bob", mkRat 50 1, 1, 0, 0⟩)], []⟩
        "u1" "u2" "u3" "u4" 1
      = .error .walletNotFound := by
  refine ⟨by decide, by decide, by decide, by decide, by decide⟩

/-- Claim C6: evaluated at a wallet with version 2 whose row is visible at
version 0 inside the open unit of work (it was inserted there and is not yet
committed) while the pooled committed view has no such row: the conditional
UPDATE matches nothing, and the disambiguation re-read of
`WalletRepository.save` (wallet.repository.ts) goes through `this.db` — the
pooled connection outside the unit of work — so it reports `WalletNotFound`,
whereas the claimed inside-the-same-unit-of-work re-read (the part_001
`executor` variant) sees the row at version 0 ≠ 1 and reports
`OptimisticLockConflict`; a wallet with version 0 is inserted instead. -/
theorem claim_C6_save_reread_outside_uow :
    WalletRepository.save ⟨⟨"w1"⟩, "carol", ⟨1000000⟩, 2, 0, 5⟩
        [("w1", ⟨"carol", mkRat 100 1, 0, 0, 0⟩)] []
      = .error .walletNotFound
    ∧ WalletRepositoryPart001.save ⟨⟨"w1"⟩, "carol", ⟨1000000⟩, 2, 0, 5⟩
        [("w1", ⟨"carol", mkRat 100 1, 0, 0, 0⟩)]
      = .error .optimisticLockConflict
    ∧ WalletRepository.save ⟨⟨"w9"⟩, "dave", ⟨0⟩, 0, 0, 0⟩ [] []
      = .ok [("w9", ⟨"dave", 0, 0, 0, 0⟩)] := by
  refine ⟨by decide, by decide, by decide⟩

/-- Claim C9: `Money.create` accepts the failing input 1e-7 — a positive
value finer than the smallest representable unit with seven fractional
digits — because the ECMAScript string of 1e-7 is the exponential-notation
"1e-7", which contains no '.', so the decimal-place count is 0; the value is
then silently rounded to `Money(0)` instead of being rejected.  The remaining
clauses of the claim do hold and are recorded alongside: 0.00005 (five
fractional digits in fixed notation), NaN, the infinities and negative
values are all rejected. -/
theorem claim_C9_create_accepts_1e7 :
    Money.create (.fin (mkRat 1 10000000)) = .ok ⟨0⟩
    ∧ Money.create (.fin (mkRat 5 100000)) = .error .tooManyDecimals
    ∧ Money.create .nan = .error .invalidAmount
    ∧ Money.create .posInf = .error .invalidAmount
    ∧ Money.create .negInf = .error .invalidAmount
    ∧ Money.create (.fin (-3)) = .error .invalidAmount := by
  refine ⟨by decide, by decide, by decide, by decide, by decide, by decide⟩

/-- Claim C10: for every accepted numeric input `q ≥ 0` with at most 4
fractional digits (`q.den ∣ 10^4`, i.e. `q * 10^4` is an integer), the
round-trip is exact: whatever `Money.create` returns satisfies
`getValue() = q`, and on the fixed-notation range (`q = 0` or
`1e-6 ≤ q < 1e21`, stated cross-multiplied on numerator and denominator)
creation is guaranteed to succeed — all arithmetic happens on the scaled
integer representation, so no drift is possible. -/
theorem claim_C10_roundtrip_exact (q : ℚ) (hq : 0 ≤ q) (h4 : q.den ∣ 10 ^ 4) :
    (∀ m, Money.create (.fin q) = .ok m → m.getValue = q)
    ∧ (q.num = 0 ∨ q.den ≤ 1000000 * q.num.natAbs ∧ q.num.natAbs < 10 ^ 21 * q.den →
        ∃ m, Money.create (.fin q) = .ok m ∧ m.getValue = q) := by
  have hden1 : (scalePow10 q 4).den = 1 := (scalePow10_den_one_iff q 4).mpr h4
  have hnumq : ((scalePow10 q 4).num : ℚ) = q * 10 ^ 4 := by
    have h := (Rat.den_eq_one_iff _).mp hden1
    nth_rewrite 2 [scalePow10_eq] at h
    exact h
  have hround : jsRound (scalePow10 q 4) = (scalePow10 q 4).num :=
    jsRound_of_den_one _ hden1
  have hp : Money.PRECISION = 4 := rfl
  have hmain : ∀ m, Money.create (.fin q) = .ok m → m.getValue = q := by
    intro m hm
    rw [Money.create, if_neg (not_lt.mpr hq)] at hm
    by_cases hprec : Money.PRECISION < jsFracDigits q
    · rw [if_pos hprec] at hm
      exact absurd hm (by simp)
    · rw [if_neg hprec, hp, Money.ctor] at hm
      by_cases hneg : jsRound (scalePow10 q 4) < 0
      · rw [if_pos hneg] at hm
        exact absurd hm (by simp)
      · rw [if_neg hneg] at hm
        simp only [Except.ok.injEq] at hm
        subst hm
        rw [Money.getValue_eq]
        show ((jsRound (scalePow10 q 4) : ℤ) : ℚ) / 10000 = q
        rw [hround, hnumq, mul_div_assoc]
        norm_num
  refine ⟨hmain, fun hcase => ?_⟩
  have hfr : jsFracDigits q ≤ 4 := by
    rw [jsFracDigits]
    by_cases hnum0 : q.num = 0
    · rw [if_pos hnum0]
      omega
    · rw [if_neg hnum0]
      have hrange : q.den ≤ 1000000 * q.num.natAbs ∧ q.num.natAbs < 10 ^ 21 * q.den := by
        rcases hcase with h0 | hr
        · exact absurd h0 hnum0
        · exact hr
      simp only [if_pos hrange]
      exact decExp_le q.den 4 (by omega) h4
  have hnn : 0 ≤ (scalePow10 q 4).num := by
    rw [scalePow10_eq]
    exact Rat.num_nonneg.mpr (by positivity)
  have hok : Money.create (.fin q) = .ok ⟨jsRound (scalePow10 q 4)⟩ := by
    rw [Money.create, if_neg (not_lt.mpr hq),
      if_neg (show ¬ Money.PRECISION < jsFracDigits q by rw [hp]; omega), hp,
      Money.ctor, if_neg (not_lt.mpr (jsRound_nonneg _ hnn))]
  exact ⟨_, hok, hmain _ hok⟩

/-- Witness for C10 at the concrete accepted input 1.2345 (= 12345/10000,
four fractional digits): creation succeeds and `getValue` returns the input
exactly. -/
theorem claim_C10_witness :
    ∃ m, Money.create (.fin (mkRat 12345 10000)) = .ok m
      ∧ m.getValue = mkRat 12345 10000 :=
  (claim_C10_roundtrip_exact (mkRat 12345 10000) (by decide) (by decide)).2
    (Or.inr (by decide))

end Flux
